import Mathlib

/-!
# Design Heuristic Evaluator — verification of the specification

Shallow embedding of the Design-Heuristic-Evaluator repository.

The repository ships a React client (`frontend/src/`) and documents a
backend transport (`/analyze`, `/compare`, `/analyze-url`, `/compare-urls`)
that the client calls; the backend request handlers themselves are not part
of the source tree.  Definitions below are therefore of two kinds:

* translated from the TypeScript sources (`types/analysis.ts`,
  `components/ImageUpload.tsx`, `App.tsx`, and the ImageUpload variant
  embedded in `run.sh`), and
* backend logic modelled from the specification, marked with a doc comment
  starting `Modelled from the spec:`.
-/

namespace DesignEval

/-- The 16 fixed heuristic dimension keys, exactly the fields of the
`HeuristicScores` interface in `frontend/src/types/analysis.ts`,
in declaration order. -/
inductive HeuristicKey where
  | visibility_of_system_status
  | match_system_real_world
  | user_control_freedom
  | consistency_standards
  | error_prevention
  | recognition_rather_than_recall
  | flexibility_efficiency
  | aesthetic_minimalist_design
  | error_recovery
  | help_documentation
  | color_accessibility_usage
  | typography_hierarchy
  | design_token_consistency
  | brand_voice_expression
  | responsive_adaptability
  | interaction_feedback
deriving DecidableEq, BEq, Fintype

/-- The deterministic ordering of the 16 keys: the declaration order of the
`HeuristicScores` interface, which is also the rendering order used by the
result components. -/
def HEURISTIC_ORDER : List HeuristicKey :=
  [.visibility_of_system_status, .match_system_real_world, .user_control_freedom,
   .consistency_standards, .error_prevention, .recognition_rather_than_recall,
   .flexibility_efficiency, .aesthetic_minimalist_design, .error_recovery,
   .help_documentation, .color_accessibility_usage, .typography_hierarchy,
   .design_token_consistency, .brand_voice_expression, .responsive_adaptability,
   .interaction_feedback]

/-- `HEURISTIC_LABELS` from `frontend/src/types/analysis.ts`. -/
def HEURISTIC_LABELS : HeuristicKey → String
  | .visibility_of_system_status => "Visibility of System Status"
  | .match_system_real_world => "Match System & Real World"
  | .user_control_freedom => "User Control & Freedom"
  | .consistency_standards => "Consistency & Standards"
  | .error_prevention => "Error Prevention"
  | .recognition_rather_than_recall => "Recognition Rather Than Recall"
  | .flexibility_efficiency => "Flexibility & Efficiency"
  | .aesthetic_minimalist_design => "Aesthetic & Minimalist Design"
  | .error_recovery => "Help Users Recognize & Recover from Errors"
  | .help_documentation => "Help & Documentation"
  | .color_accessibility_usage => "Color & Accessibility"
  | .typography_hierarchy => "Typography & Hierarchy"
  | .design_token_consistency => "Design System Consistency"
  | .brand_voice_expression => "Brand Voice & Expression"
  | .responsive_adaptability => "Responsive & Adaptable"
  | .interaction_feedback => "Interaction & Feedback"

/-- `HEURISTIC_DESCRIPTIONS` from `frontend/src/types/analysis.ts`. -/
def HEURISTIC_DESCRIPTIONS : HeuristicKey → String
  | .visibility_of_system_status =>
    "The system should keep users informed about what is happening through appropriate feedback within reasonable time."
  | .match_system_real_world =>
    "The system should speak the users\x27 language, with words, phrases and concepts familiar to the user."
  | .user_control_freedom =>
    "Users often choose system functions by mistake and need a clearly marked \"emergency exit\" to leave the unwanted state."
  | .consistency_standards =>
    "Users should not have to wonder whether different words, situations, or actions mean the same thing."
  | .error_prevention =>
    "Even better than good error messages is a careful design which prevents problems from occurring in the first place."
  | .recognition_rather_than_recall =>
    "Minimize the user\x27s memory load by making objects, actions, and options visible."
  | .flexibility_efficiency =>
    "Accelerators may often speed up the interaction for expert users such that the system can cater to both inexperienced and experienced users."
  | .aesthetic_minimalist_design =>
    "Dialogues should not contain information which is irrelevant or rarely needed."
  | .error_recovery =>
    "Error messages should be expressed in plain language, precisely indicate the problem, and constructively suggest a solution."
  | .help_documentation =>
    "Even though it is better if the system can be used without documentation, it may be necessary to provide help and documentation."
  | .color_accessibility_usage =>
    "Colors should meet WCAG accessibility standards, communicate meaning semantically, and follow consistent usage patterns throughout the interface."
  | .typography_hierarchy =>
    "Text should establish clear information hierarchy using appropriate type scales, weights, spacing, and line heights to guide user attention."
  | .design_token_consistency =>
    "Visual properties should follow systematic design tokens for spacing, sizing, colors, and typography to ensure scalable consistency."
  | .brand_voice_expression =>
    "Design should authentically communicate brand personality, values, and voice while maintaining professional usability standards."
  | .responsive_adaptability =>
    "Interface should work seamlessly across different devices, screen sizes, and contexts with flexible, mobile-first design principles."
  | .interaction_feedback =>
    "User actions should provide immediate, clear, and appropriate feedback through visual states, transitions, and micro-interactions."

/-- Modelled from the spec: `HEURISTIC_SOURCES` is imported from
`types/analysis.ts` by the result components (`AnalysisResult`,
`ComparisonResult`) as the per-key reference source URL of the schema, but
its definition is not present in the source tree.  The spec (section 4.1)
requires a reference source URL for each of the 16 keys: the 10 classic
usability heuristics cite Nielsen's heuristics article, the 6 modern
design-system heuristics cite the Red Hat design system that the
descriptions name as their inspiration. -/
def HEURISTIC_SOURCES : HeuristicKey → String
  | .visibility_of_system_status => "https://www.nngroup.com/articles/ten-usability-heuristics/"
  | .match_system_real_world => "https://www.nngroup.com/articles/ten-usability-heuristics/"
  | .user_control_freedom => "https://www.nngroup.com/articles/ten-usability-heuristics/"
  | .consistency_standards => "https://www.nngroup.com/articles/ten-usability-heuristics/"
  | .error_prevention => "https://www.nngroup.com/articles/ten-usability-heuristics/"
  | .recognition_rather_than_recall => "https://www.nngroup.com/articles/ten-usability-heuristics/"
  | .flexibility_efficiency => "https://www.nngroup.com/articles/ten-usability-heuristics/"
  | .aesthetic_minimalist_design => "https://www.nngroup.com/articles/ten-usability-heuristics/"
  | .error_recovery => "https://www.nngroup.com/articles/ten-usability-heuristics/"
  | .help_documentation => "https://www.nngroup.com/articles/ten-usability-heuristics/"
  | .color_accessibility_usage => "https://ux.redhat.com/"
  | .typography_hierarchy => "https://ux.redhat.com/"
  | .design_token_consistency => "https://ux.redhat.com/"
  | .brand_voice_expression => "https://ux.redhat.com/"
  | .responsive_adaptability => "https://ux.redhat.com/"
  | .interaction_feedback => "https://ux.redhat.com/"

/-- The `HeuristicScores` interface from `frontend/src/types/analysis.ts`:
one numeric score per dimension key.  Scores are rationals (the product
demands integer-or-one-decimal precision in [0, 10]). -/
structure HeuristicScores where
  visibility_of_system_status : ℚ
  match_system_real_world : ℚ
  user_control_freedom : ℚ
  consistency_standards : ℚ
  error_prevention : ℚ
  recognition_rather_than_recall : ℚ
  flexibility_efficiency : ℚ
  aesthetic_minimalist_design : ℚ
  error_recovery : ℚ
  help_documentation : ℚ
  color_accessibility_usage : ℚ
  typography_hierarchy : ℚ
  design_token_consistency : ℚ
  brand_voice_expression : ℚ
  responsive_adaptability : ℚ
  interaction_feedback : ℚ
deriving DecidableEq

/-- The values of a score set, in the deterministic key order
(`heuristic_scores.values()` of the spec). -/
def scoresList (s : HeuristicScores) : List ℚ :=
  [s.visibility_of_system_status, s.match_system_real_world, s.user_control_freedom,
   s.consistency_standards, s.error_prevention, s.recognition_rather_than_recall,
   s.flexibility_efficiency, s.aesthetic_minimalist_design, s.error_recovery,
   s.help_documentation, s.color_accessibility_usage, s.typography_hierarchy,
   s.design_token_consistency, s.brand_voice_expression, s.responsive_adaptability,
   s.interaction_feedback]

/-- Projection of a score set at a dimension key. -/
def getScore (s : HeuristicScores) : HeuristicKey → ℚ
  | .visibility_of_system_status => s.visibility_of_system_status
  | .match_system_real_world => s.match_system_real_world
  | .user_control_freedom => s.user_control_freedom
  | .consistency_standards => s.consistency_standards
  | .error_prevention => s.error_prevention
  | .recognition_rather_than_recall => s.recognition_rather_than_recall
  | .flexibility_efficiency => s.flexibility_efficiency
  | .aesthetic_minimalist_design => s.aesthetic_minimalist_design
  | .error_recovery => s.error_recovery
  | .help_documentation => s.help_documentation
  | .color_accessibility_usage => s.color_accessibility_usage
  | .typography_hierarchy => s.typography_hierarchy
  | .design_token_consistency => s.design_token_consistency
  | .brand_voice_expression => s.brand_voice_expression
  | .responsive_adaptability => s.responsive_adaptability
  | .interaction_feedback => s.interaction_feedback

/-- A single score is in the documented per-heuristic range [0, 10]. -/
def validScore (q : ℚ) : Prop := 0 ≤ q ∧ q ≤ 10

instance (q : ℚ) : Decidable (validScore q) :=
  inferInstanceAs (Decidable (0 ≤ q ∧ q ≤ 10))

/-- A `HeuristicScoreSet` is valid when every one of the 16 values is in
[0, 10] (spec section 3). -/
def validScores (s : HeuristicScores) : Prop :=
  ∀ q ∈ scoresList s, validScore q

instance (s : HeuristicScores) : Decidable (validScores s) :=
  inferInstanceAs (Decidable (∀ q ∈ scoresList s, validScore q))

/-- The `DesignAnalysis` interface from `frontend/src/types/analysis.ts`.
`overall_score` is on the 0-100 scale (an integer after the rounding rule);
the free-text maps and lists are carried as association lists / lists. -/
structure DesignAnalysis where
  overall_score : ℤ
  heuristic_scores : HeuristicScores
  heuristic_reasoning : List (HeuristicKey × String)
  recommendations : List String
  strengths : List String
  areas_for_improvement : List String
  summary : String
deriving DecidableEq

/-- The winner field of `ComparisonAnalysis` in
`frontend/src/types/analysis.ts`: `'design_a' | 'design_b' | 'tie'`. -/
inductive Winner where
  | design_a
  | design_b
  | tie
deriving DecidableEq, BEq

/-- The per-design sub-record of `ComparisonAnalysis`
(`design_a_analysis` / `design_b_analysis` in
`frontend/src/types/analysis.ts`): scores, reasoning, strengths,
improvements and summary, without a top-level overall score. -/
structure SubAnalysis where
  heuristic_scores : HeuristicScores
  heuristic_reasoning : List (HeuristicKey × String)
  strengths : List String
  areas_for_improvement : List String
  summary : String
deriving DecidableEq

/-- The `ComparisonAnalysis` interface from
`frontend/src/types/analysis.ts`. -/
structure ComparisonAnalysis where
  winner : Winner
  reasoning : String
  design_a_score : ℤ
  design_b_score : ℤ
  recommendations : List String
  design_a_analysis : Option SubAnalysis
  design_b_analysis : Option SubAnalysis
deriving DecidableEq

deriving instance DecidableEq for Except

/-- The error taxonomy of spec section 7. -/
inductive ErrorKind where
  | InvalidInput
  | UnreachableURL
  | UpstreamUnavailable
  | MalformedResponse
  | ScoreOutOfRange
deriving DecidableEq, BEq

/-- Clamp an integer to the overall-score range [0, 100]. -/
def clamp100 (n : ℤ) : ℤ := max 0 (min 100 n)

/-- Modelled from the spec: the aggregation rule of section 4.3 step 4,
absent from the source tree together with the backend request handlers.
`overall_score = round(mean(heuristic_scores.values()) * 10)`, clamped to
[0, 100]; the mean is the simple unweighted mean of the 16 values. -/
def computeOverallScore (s : HeuristicScores) : ℤ :=
  clamp100 (round ((scoresList s).sum / 16 * 10))

/-- The raw, semi-structured model response after structured decode
(spec section 4.3 step 1): scores and reasoning arrive as key-value
pairs that may miss keys or carry out-of-range values. -/
structure RawResponse where
  heuristic_scores : List (HeuristicKey × ℚ)
  heuristic_reasoning : List (HeuristicKey × String)
  recommendations : List String
  strengths : List String
  areas_for_improvement : List String
  summary : String
deriving DecidableEq

/-- Modelled from the spec: step 2 of the parser (section 4.3) gathers the
16 dimension scores from the decoded response; any missing key makes the
gather fail. -/
def buildScores (raw : List (HeuristicKey × ℚ)) : Option HeuristicScores :=
  if h : ∀ k : HeuristicKey, (raw.lookup k).isSome then
    some
      { visibility_of_system_status := (raw.lookup .visibility_of_system_status).get (h _)
        match_system_real_world := (raw.lookup .match_system_real_world).get (h _)
        user_control_freedom := (raw.lookup .user_control_freedom).get (h _)
        consistency_standards := (raw.lookup .consistency_standards).get (h _)
        error_prevention := (raw.lookup .error_prevention).get (h _)
        recognition_rather_than_recall := (raw.lookup .recognition_rather_than_recall).get (h _)
        flexibility_efficiency := (raw.lookup .flexibility_efficiency).get (h _)
        aesthetic_minimalist_design := (raw.lookup .aesthetic_minimalist_design).get (h _)
        error_recovery := (raw.lookup .error_recovery).get (h _)
        help_documentation := (raw.lookup .help_documentation).get (h _)
        color_accessibility_usage := (raw.lookup .color_accessibility_usage).get (h _)
        typography_hierarchy := (raw.lookup .typography_hierarchy).get (h _)
        design_token_consistency := (raw.lookup .design_token_consistency).get (h _)
        brand_voice_expression := (raw.lookup .brand_voice_expression).get (h _)
        responsive_adaptability := (raw.lookup .responsive_adaptability).get (h _)
        interaction_feedback := (raw.lookup .interaction_feedback).get (h _) }
  else none

/-- Modelled from the spec: steps 2 and 3 of the Model Response Parser
(section 4.3) with the documented recommended policies — a response missing
any of the 16 keys fails with `MalformedResponse`; a response whose scores
are not all in [0, 10] fails with `ScoreOutOfRange` (no clamping, no
sentinel defaults). -/
def parseScores (raw : List (HeuristicKey × ℚ)) : Except ErrorKind HeuristicScores :=
  match buildScores raw with
  | none => .error .MalformedResponse
  | some s => if validScores s then .ok s else .error .ScoreOutOfRange

/-- The JavaScript `String.prototype.trim` the client applies to its text
inputs: strip leading and trailing whitespace. -/
def jsTrim (s : String) : String :=
  ⟨((s.data.dropWhile Char.isWhitespace).reverse.dropWhile Char.isWhitespace).reverse⟩

/-- Step 5 of the parser (spec section 4.3): entries that are empty after
trimming are dropped from the free-text lists. -/
def cleanTextList (l : List String) : List String :=
  l.filter (fun t => jsTrim t ≠ "")

/-- Modelled from the spec: the Model Response Parser (section 4.3).
Scores are validated (steps 2-3), the overall score is recomputed
independently of the model (step 4), and the free-text lists are filtered
(step 5). -/
def parseAnalysis (raw : RawResponse) : Except ErrorKind DesignAnalysis :=
  match parseScores raw.heuristic_scores with
  | .error e => .error e
  | .ok s =>
    .ok
      { overall_score := computeOverallScore s
        heuristic_scores := s
        heuristic_reasoning := raw.heuristic_reasoning
        recommendations := cleanTextList raw.recommendations
        strengths := cleanTextList raw.strengths
        areas_for_improvement := cleanTextList raw.areas_for_improvement
        summary := raw.summary }

/-- The file of an upload: name, size in bytes, declared media type
(the fields of the browser `File` object that the validation and the
request bodies use). -/
structure ImageFile where
  name : String
  size : ℕ
  mediaType : String
deriving DecidableEq

/-- The accepted media types, from the dropzone configuration in
`frontend/src/components/ImageUpload.tsx` (`image/*` restricted to the
jpeg/jpg/png/gif/bmp/webp extensions). -/
def acceptedMediaTypes : List String :=
  ["image/jpeg", "image/png", "image/gif", "image/bmp", "image/webp"]

/-- The upload size ceiling, `10 * 1024 * 1024` bytes, from the dropzone
configuration in `frontend/src/components/ImageUpload.tsx` (10MB). -/
def maxUploadSize : ℕ := 10 * 1024 * 1024

/-- Modelled from the spec: the image validation of the Single-Design
Evaluator (section 4.4) — non-zero size, recognized media type, size at
most the configured ceiling; the accepted set and the 10 MB ceiling are
the ones the client enforces in `ImageUpload.tsx`. -/
def validImage (img : ImageFile) : Bool :=
  img.size != 0 && acceptedMediaTypes.contains img.mediaType &&
    img.size ≤ maxUploadSize

/-- Modelled from the spec: the Single-Design Evaluator (section 4.4),
absent from the source tree together with the backend.  `callModel` is the
external vision-model collaborator; the second component of the result
counts the external model invocations the call performed.  An invalid
image fails with `InvalidInput` before any model call; otherwise exactly
one model invocation happens and its response is parsed. -/
def evaluateSingle (callModel : ImageFile → Except ErrorKind RawResponse)
    (img : ImageFile) : Except ErrorKind DesignAnalysis × ℕ :=
  if validImage img then
    match callModel img with
    | .error e => (.error e, 1)
    | .ok raw => (parseAnalysis raw, 1)
  else (.error .InvalidInput, 0)

/-- The tie threshold of the winner determination, a policy constant:
2 points on the 0-100 scale (spec section 4.5). -/
def tieThreshold : ℤ := 2

/-- Modelled from the spec: the winner determination of the Comparison
Evaluator (section 4.5) — `tie` when `|scoreA - scoreB| < tieThreshold`,
otherwise `design_a` when `scoreA > scoreB`, else `design_b`. -/
def determineWinner (scoreA scoreB : ℤ) : Winner :=
  if |scoreA - scoreB| < tieThreshold then .tie
  else if scoreA > scoreB then .design_a
  else .design_b

/-- Exchange of the two design labels; a tie is its own exchange. -/
def flipWinner : Winner → Winner
  | .design_a => .design_b
  | .design_b => .design_a
  | .tie => .tie

/-- The per-design sub-record of a comparison, built from a completed
single-design analysis. -/
def subAnalysisOf (d : DesignAnalysis) : SubAnalysis :=
  { heuristic_scores := d.heuristic_scores
    heuristic_reasoning := d.heuristic_reasoning
    strengths := d.strengths
    areas_for_improvement := d.areas_for_improvement
    summary := d.summary }

/-- Modelled from the spec: the deterministic template text for the winner
reasoning (section 4.5 — deterministic given the same two completed
analyses). -/
def comparisonReasoning (a b : DesignAnalysis) : String :=
  "Design A scored " ++ toString a.overall_score ++ " and Design B scored "
    ++ toString b.overall_score ++ " across the 16 heuristics."

/-- Modelled from the spec: comparison-level recommendations merge and
deduplicate the two sub-analyses, biased toward the lower-scoring design
(section 4.5). -/
def mergeRecommendations (a b : DesignAnalysis) : List String :=
  if a.overall_score ≤ b.overall_score then
    (a.recommendations ++ b.recommendations).dedup
  else (b.recommendations ++ a.recommendations).dedup

/-- The comparison record derived from the two completed analyses. -/
def mkComparison (a b : DesignAnalysis) : ComparisonAnalysis :=
  { winner := determineWinner a.overall_score b.overall_score
    reasoning := comparisonReasoning a b
    design_a_score := a.overall_score
    design_b_score := b.overall_score
    recommendations := mergeRecommendations a b
    design_a_analysis := some (subAnalysisOf a)
    design_b_analysis := some (subAnalysisOf b) }

/-- Modelled from the spec: the Comparison Evaluator (section 4.5) — run
the Single-Design Evaluator independently on the two images, then derive
the winner from the two overall scores.  The second component counts the
total external model invocations. -/
def evaluateCompare (callModel : ImageFile → Except ErrorKind RawResponse)
    (imgA imgB : ImageFile) : Except ErrorKind ComparisonAnalysis × ℕ :=
  let ra := evaluateSingle callModel imgA
  let rb := evaluateSingle callModel imgB
  match ra.1, rb.1 with
  | .ok a, .ok b => (.ok (mkComparison a b), ra.2 + rb.2)
  | .error e, _ => (.error e, ra.2 + rb.2)
  | .ok _, .error e => (.error e, ra.2 + rb.2)

/-- The evaluation mode of the client (`'single' | 'comparison'`). -/
inductive Mode where
  | single
  | comparison
deriving DecidableEq, BEq

/-- The input mode of the URL-capable ImageUpload variant
(`'upload' | 'url'`). -/
inductive InputMode where
  | upload
  | url
deriving DecidableEq, BEq

/-- The local state of the `ImageUpload` component: the staged images, the
error message, and (in the URL-capable variant embedded in `run.sh`) the
two URL fields.  The `preview` object URLs are presentation-only and not
modelled. -/
structure UploadPanelState where
  images : List ImageFile
  error : String
  url : String
  comparisonUrl : String
deriving DecidableEq

/-- The initial `useState` values of `ImageUpload`. -/
def initialUploadState : UploadPanelState :=
  { images := [], error := "", url := "", comparisonUrl := "" }

/-- `maxImages` from `frontend/src/components/ImageUpload.tsx`
(`mode === 'single' ? 1 : 2`). -/
def maxImages : Mode → ℕ
  | .single => 1
  | .comparison => 2

/-- `onDrop` from `frontend/src/components/ImageUpload.tsx` (lines 27-52):
clear the error; reject a multi-file drop in single mode and a drop that
would exceed two images in comparison mode (setting the error message and
leaving the staged list unchanged); otherwise stage the first file in
single mode (replacing any existing image) or append and cap at two in
comparison mode. -/
def onDrop (mode : Mode) (s : UploadPanelState)
    (acceptedFiles : List ImageFile) : UploadPanelState :=
  if mode = .single ∧ acceptedFiles.length > 1 then
    { s with error := "Please upload only one image for single design analysis" }
  else if mode = .comparison ∧ s.images.length + acceptedFiles.length > 2 then
    { s with error := "Please upload only two images for comparison" }
  else
    match mode with
    | .single => { s with error := "", images := acceptedFiles.take 1 }
    | .comparison => { s with error := "", images := (s.images ++ acceptedFiles).take 2 }

/-- `removeImage` from `frontend/src/components/ImageUpload.tsx`: drop the
image at the given index and clear the error. -/
def removeImage (s : UploadPanelState) (i : ℕ) : UploadPanelState :=
  { s with images := s.images.eraseIdx i, error := "" }

/-- `canAnalyze` from `frontend/src/components/ImageUpload.tsx`
(lines 68-75): exactly one staged image in single mode, exactly two in
comparison mode. -/
def canAnalyze (mode : Mode) (s : UploadPanelState) : Bool :=
  match mode with
  | .single => s.images.length == 1
  | .comparison => s.images.length == 2

/-- The user-driven events of the upload panel. -/
inductive UploadEvent where
  | drop (acceptedFiles : List ImageFile)
  | remove (i : ℕ)

/-- One upload-panel transition. -/
def uploadStep (mode : Mode) (s : UploadPanelState) : UploadEvent → UploadPanelState
  | .drop files => onDrop mode s files
  | .remove i => removeImage s i

/-- The upload-panel state after a sequence of events, from the initial
state. -/
def runUpload (mode : Mode) (events : List UploadEvent) : UploadPanelState :=
  events.foldl (uploadStep mode) initialUploadState

/-- `canAnalyze` of the URL-capable ImageUpload variant embedded in
`run.sh`: in url input mode the (trimmed) URL fields must be non-empty; in
upload input mode the staged-image counts are as in the base variant. -/
def canAnalyzeUrlMode (mode : Mode) (inputMode : InputMode)
    (s : UploadPanelState) : Bool :=
  match inputMode with
  | .url =>
    match mode with
    | .single => jsTrim s.url != ""
    | .comparison => jsTrim s.url != "" && jsTrim s.comparisonUrl != ""
  | .upload =>
    match mode with
    | .single => s.images.length == 1
    | .comparison => s.images.length == 2

/-- The body of a backend request, as the client builds it in
`handleAnalysis`: a single file form, a two-file form, a `{url}` JSON
body, or a `{url, comparison_url}` JSON body. -/
inductive RequestBody where
  | fileForm (file : ImageFile)
  | compareForm (design_a design_b : ImageFile)
  | urlJson (url : String)
  | compareUrlsJson (url comparison_url : String)
deriving DecidableEq

/-- A request to the transport boundary: the endpoint path (relative to
`API_BASE_URL`) and the body. -/
structure ApiRequest where
  endpoint : String
  body : RequestBody
deriving DecidableEq

/-- `handleAnalysis` of the URL-capable ImageUpload variant embedded in
`run.sh`: no request when `canAnalyze` fails or a request is in flight;
otherwise dispatch to one of the four operations of the transport
boundary — `analyze` (one file), `compare` (two files, labeled A/B),
`analyze-url` (`{url}`), `compare-urls` (`{url, comparison_url}`) — with
URL fields trimmed. -/
def buildRequest (mode : Mode) (inputMode : InputMode) (s : UploadPanelState)
    (isAnalyzing : Bool) : Option ApiRequest :=
  if !canAnalyzeUrlMode mode inputMode s || isAnalyzing then none
  else
    match inputMode, mode with
    | .url, .single => some ⟨"analyze-url", .urlJson (jsTrim s.url)⟩
    | .url, .comparison =>
      some ⟨"compare-urls", .compareUrlsJson (jsTrim s.url) (jsTrim s.comparisonUrl)⟩
    | .upload, .single =>
      match s.images with
      | img :: _ => some ⟨"analyze", .fileForm img⟩
      | [] => none
    | .upload, .comparison =>
      match s.images with
      | a :: b :: _ => some ⟨"compare", .compareForm a b⟩
      | _ => none

/-- The `App` component state (`frontend/src/App.tsx` `useState` hooks). -/
structure AppState where
  mode : Mode
  analysisResult : Option DesignAnalysis
  comparisonResult : Option ComparisonAnalysis
  uploadedImages : List ImageFile
  isAnalyzing : Bool
deriving DecidableEq

/-- The initial `App` state: single mode, no results, no images, not
analyzing. -/
def initialAppState : AppState :=
  { mode := .single, analysisResult := none, comparisonResult := none,
    uploadedImages := [], isAnalyzing := false }

/-- The events handled by `App` (`frontend/src/App.tsx`): the completion
callbacks, the start callback, and the mode-selector clicks (which also
call `resetResults`). -/
inductive AppEvent where
  | analysisComplete (result : DesignAnalysis) (images : List ImageFile)
  | comparisonComplete (result : ComparisonAnalysis) (images : List ImageFile)
  | analysisStart
  | selectMode (m : Mode)

/-- One `App` transition, from the handlers in `frontend/src/App.tsx`:
`handleAnalysisComplete`, `handleComparisonComplete`,
`handleAnalysisStart`, and the mode-selector `onClick` (`setMode` +
`resetResults`). -/
def appStep (s : AppState) : AppEvent → AppState
  | .analysisComplete r imgs =>
    { s with analysisResult := some r, uploadedImages := imgs,
             comparisonResult := none, isAnalyzing := false }
  | .comparisonComplete r imgs =>
    { s with comparisonResult := some r, uploadedImages := imgs,
             analysisResult := none, isAnalyzing := false }
  | .analysisStart =>
    { s with isAnalyzing := true, analysisResult := none,
             comparisonResult := none }
  | .selectMode m =>
    { s with mode := m, analysisResult := none, comparisonResult := none,
             isAnalyzing := false }

/-- The `App` state after a sequence of events, from the initial state. -/
def runApp (events : List AppEvent) : AppState :=
  events.foldl appStep initialAppState

/-- A score set with all 16 scores equal to 5.0. -/
def fivePointScores : HeuristicScores :=
  ⟨5, 5, 5, 5, 5, 5, 5, 5, 5, 5, 5, 5, 5, 5, 5, 5⟩

/-- C1: for every valid `HeuristicScoreSet` (each of the 16 values in
[0, 10]), the overall score equals `round(mean(values) * 10)` — the clamp
to [0, 100] never changes it — and it lies in [0, 100]. -/
theorem overall_score_is_rounded_mean (s : HeuristicScores)
    (h : validScores s) :
    computeOverallScore s = round ((scoresList s).sum / 16 * 10) ∧
    0 ≤ computeOverallScore s ∧ computeOverallScore s ≤ 100 := by
  have h0 : 0 ≤ (scoresList s).sum :=
    List.sum_nonneg fun q hq => (h q hq).1
  have h160 : (scoresList s).sum ≤ 160 := by
    have hb := List.sum_le_card_nsmul (scoresList s) 10 fun q hq => (h q hq).2
    have hlen : (scoresList s).length = 16 := by simp [scoresList]
    rw [hlen, nsmul_eq_mul] at hb
    push_cast at hb
    linarith
  have hx0 : 0 ≤ (scoresList s).sum / 16 * 10 := by positivity
  have hx100 : (scoresList s).sum / 16 * 10 ≤ 100 := by
    rw [div_mul_eq_mul_div, div_le_iff (by norm_num : (0:ℚ) < 16)]
    linarith
  have hr0 : 0 ≤ round ((scoresList s).sum / 16 * 10) := by
    rw [round_eq]
    exact Int.le_floor.mpr (by push_cast; linarith)
  have hr100 : round ((scoresList s).sum / 16 * 10) ≤ 100 := by
    rw [round_eq]
    have hmono : ⌊(scoresList s).sum / 16 * 10 + 1/2⌋ ≤ ⌊(100:ℚ) + 1/2⌋ :=
      Int.floor_le_floor (by linarith)
    have hval : ⌊(100:ℚ) + 1/2⌋ = 100 := by
      rw [Int.floor_eq_iff]
      norm_num
    omega
  have heq : computeOverallScore s = round ((scoresList s).sum / 16 * 10) := by
    unfold computeOverallScore clamp100
    omega
  exact ⟨heq, heq ▸ hr0, heq ▸ hr100⟩

/-- C1 witness: the all-5.0 score set is valid and yields overall score
50. -/
theorem overall_score_is_rounded_mean_witness :
    validScores fivePointScores ∧ computeOverallScore fivePointScores = 50 := by
  constructor
  · decide
  · have h := (overall_score_is_rounded_mean fivePointScores (by decide)).1
    rw [h]
    norm_num [scoresList, fivePointScores, round_eq]

/-- C2: for overall scores in [0, 100], the winner is `tie` exactly when
`|scoreA - scoreB| < 2`; otherwise the higher-scoring design wins. -/
theorem winner_determination (a b : ℤ)
    (ha : 0 ≤ a ∧ a ≤ 100) (hb : 0 ≤ b ∧ b ≤ 100) :
    (determineWinner a b = .tie ↔ |a - b| < 2) ∧
    (2 ≤ |a - b| → a > b → determineWinner a b = .design_a) ∧
    (2 ≤ |a - b| → b > a → determineWinner a b = .design_b) := by
  unfold determineWinner tieThreshold
  split_ifs with h1 h2 <;>
    refine ⟨?_, ?_, ?_⟩ <;> simp_all <;> omega

/-- C2 witness: scores 70 and 71 give a tie; scores 70 and 73 give
design B. -/
theorem winner_determination_witness :
    determineWinner 70 71 = .tie ∧ determineWinner 70 73 = .design_b := by
  constructor
  · exact (winner_determination 70 71 (by omega) (by omega)).1.mpr (by decide)
  · exact (winner_determination 70 73 (by omega) (by omega)).2.2
      (by decide) (by decide)

lemma buildScores_lookup (raw : List (HeuristicKey × ℚ)) (s : HeuristicScores)
    (h : buildScores raw = some s) (k : HeuristicKey) :
    raw.lookup k = some (getScore s k) := by
  unfold buildScores at h
  split at h
  case isTrue hall =>
    injection h with h'
    subst h'
    cases k <;> exact (Option.some_get (hall _)).symm
  case isFalse => exact absurd h (by simp)

lemma getScore_mem_scoresList (s : HeuristicScores) (k : HeuristicKey) :
    getScore s k ∈ scoresList s := by
  cases k <;> simp [getScore, scoresList]

/-- C3: a model response whose score map misses at least one of the 16
dimension keys is rejected by the parser with `MalformedResponse`. -/
theorem parser_rejects_missing_key (raw : List (HeuristicKey × ℚ))
    (h : ∃ k : HeuristicKey, raw.lookup k = none) :
    parseScores raw = .error .MalformedResponse := by
  obtain ⟨k, hk⟩ := h
  have hnall : ¬ ∀ k : HeuristicKey, (raw.lookup k).isSome := by
    intro hall
    have h2 := hall k
    rw [hk] at h2
    simp at h2
  unfold parseScores buildScores
  rw [dif_neg hnall]

/-- The 16 scores all set to 5, in key order (a fully populated raw score
map). -/
def fullRawScores : List (HeuristicKey × ℚ) :=
  HEURISTIC_ORDER.map fun k => (k, 5)

/-- A raw score map with only 15 of the 16 keys present
(`interaction_feedback` missing). -/
def raw15 : List (HeuristicKey × ℚ) := fullRawScores.take 15

/-- C3 witness: a response carrying exactly 15 of the 16 keys is rejected
with `MalformedResponse`. -/
theorem parser_rejects_missing_key_witness :
    raw15.length = 15 ∧ parseScores raw15 = .error .MalformedResponse :=
  ⟨by decide,
   parser_rejects_missing_key raw15 ⟨.interaction_feedback, by decide⟩⟩

/-- C4: a model response carrying all 16 keys in which some dimension's
score lies outside [0, 10] is rejected with `ScoreOutOfRange`; moreover no
response whatsoever parses into a score set containing an out-of-range
value (the parser never clamps). -/
theorem parser_rejects_out_of_range (raw : List (HeuristicKey × ℚ))
    (hall : ∀ k : HeuristicKey, (raw.lookup k).isSome)
    (hbad : ∃ k v, raw.lookup k = some v ∧ ¬ validScore v) :
    parseScores raw = .error .ScoreOutOfRange ∧
    (∀ s, parseScores raw ≠ .ok s) ∧
    (∀ raw' s, parseScores raw' = .ok s → validScores s) := by
  obtain ⟨k, v, hkv, hnv⟩ := hbad
  have hb : ∃ s, buildScores raw = some s := by
    unfold buildScores
    rw [dif_pos hall]
    exact ⟨_, rfl⟩
  obtain ⟨s0, hs0⟩ := hb
  have hlook := buildScores_lookup raw s0 hs0 k
  rw [hkv] at hlook
  have hveq : v = getScore s0 k := Option.some.inj hlook
  have hnvalid : ¬ validScores s0 := fun hv =>
    hnv (hveq ▸ hv _ (getScore_mem_scoresList s0 k))
  refine ⟨?_, ?_, ?_⟩
  · simp only [parseScores, hs0, if_neg hnvalid]
  · intro s hok
    simp only [parseScores, hs0, if_neg hnvalid] at hok
    exact Except.noConfusion hok
  · intro raw' s hok
    cases hb' : buildScores raw' with
    | none =>
      simp only [parseScores, hb'] at hok
      exact Except.noConfusion hok
    | some s' =>
      simp only [parseScores, hb'] at hok
      by_cases hv : validScores s'
      · rw [if_pos hv] at hok
        exact (Except.ok.inj hok) ▸ hv
      · rw [if_neg hv] at hok
        exact Except.noConfusion hok

/-- A fully populated raw score map with `typography_hierarchy` set to
11. -/
def rawScore11 : List (HeuristicKey × ℚ) :=
  HEURISTIC_ORDER.map fun k => (k, if k = .typography_hierarchy then (11:ℚ) else 5)

/-- A fully populated raw score map with `error_prevention` set to -1. -/
def rawScoreNeg : List (HeuristicKey × ℚ) :=
  HEURISTIC_ORDER.map fun k => (k, if k = .error_prevention then (-1:ℚ) else 5)

/-- C4 witness: a score of 11 and a score of -1 are each rejected with
`ScoreOutOfRange`. -/
theorem parser_rejects_out_of_range_witness :
    parseScores rawScore11 = .error .ScoreOutOfRange ∧
    parseScores rawScoreNeg = .error .ScoreOutOfRange :=
  ⟨(parser_rejects_out_of_range rawScore11 (by decide)
      ⟨.typography_hierarchy, 11, by decide, by decide⟩).1,
   (parser_rejects_out_of_range rawScoreNeg (by decide)
      ⟨.error_prevention, -1, by decide, by decide⟩).1⟩

/-- C5: an invalid uploaded image (zero bytes, unrecognized media type, or
size over the 10 MB ceiling) makes the Single-Design Evaluator return
`InvalidInput` with zero external model invocations, whatever the model
client would have answered. -/
theorem invalid_image_no_model_call
    (callModel : ImageFile → Except ErrorKind RawResponse) (img : ImageFile)
    (h : validImage img = false) :
    evaluateSingle callModel img = (.error .InvalidInput, 0) := by
  simp [evaluateSingle, h]

/-- A zero-byte upload. -/
def zeroByteImage : ImageFile := ⟨"empty.png", 0, "image/png"⟩

/-- An upload whose media type is not in the accepted set. -/
def textUpload : ImageFile := ⟨"notes.txt", 1000, "text/plain"⟩

/-- An upload one byte over the 10 MB ceiling. -/
def oversizedImage : ImageFile := ⟨"big.png", 10 * 1024 * 1024 + 1, "image/png"⟩

/-- A model client stub; it is never reached on invalid input. -/
def stubModel : ImageFile → Except ErrorKind RawResponse :=
  fun _ => .error .UpstreamUnavailable

/-- C5 witness: each of the three invalid uploads yields `InvalidInput`
with zero model invocations. -/
theorem invalid_image_no_model_call_witness :
    evaluateSingle stubModel zeroByteImage = (.error .InvalidInput, 0) ∧
    evaluateSingle stubModel textUpload = (.error .InvalidInput, 0) ∧
    evaluateSingle stubModel oversizedImage = (.error .InvalidInput, 0) :=
  ⟨invalid_image_no_model_call stubModel zeroByteImage (by decide),
   invalid_image_no_model_call stubModel textUpload (by decide),
   invalid_image_no_model_call stubModel oversizedImage (by decide)⟩

lemma determineWinner_swap (a b : ℤ) :
    determineWinner b a = flipWinner (determineWinner a b) := by
  unfold determineWinner flipWinner tieThreshold
  rw [abs_sub_comm b a]
  simp only [abs_lt]
  split_ifs <;> first | rfl | omega

/-- C6: whenever the Comparison Evaluator succeeds on (A, B) and on
(B, A), the second result is the first with the two design scores and the
two sub-analyses exchanged and the winner label flipped, a tie being
unchanged. -/
theorem comparison_swap
    (callModel : ImageFile → Except ErrorKind RawResponse)
    (imgA imgB : ImageFile) (c c' : ComparisonAnalysis)
    (h1 : (evaluateCompare callModel imgA imgB).1 = .ok c)
    (h2 : (evaluateCompare callModel imgB imgA).1 = .ok c') :
    c'.design_a_score = c.design_b_score ∧
    c'.design_b_score = c.design_a_score ∧
    c'.design_a_analysis = c.design_b_analysis ∧
    c'.design_b_analysis = c.design_a_analysis ∧
    c'.winner = flipWinner c.winner ∧
    (c.winner = .tie ↔ c'.winner = .tie) := by
  rcases hA : (evaluateSingle callModel imgA).1 with eA | a <;>
    rcases hB : (evaluateSingle callModel imgB).1 with eB | b <;>
      simp only [evaluateCompare, hA, hB] at h1 h2
  · exact Except.noConfusion h1
  · exact Except.noConfusion h1
  · exact Except.noConfusion h1
  obtain rfl : c = mkComparison a b := (Except.ok.inj h1).symm
  obtain rfl : c' = mkComparison b a := (Except.ok.inj h2).symm
  have hw : (mkComparison b a).winner = flipWinner (mkComparison a b).winner :=
    determineWinner_swap a.overall_score b.overall_score
  refine ⟨rfl, rfl, rfl, rfl, hw, ?_⟩
  rw [hw]
  cases hv : (mkComparison a b).winner <;> simp [flipWinner]

/-- A fully populated raw score map with every score 7. -/
def rawScoresSeven : List (HeuristicKey × ℚ) :=
  HEURISTIC_ORDER.map fun k => (k, 7)

/-- A canned model response for design A (all scores 5). -/
def rawRespA : RawResponse :=
  { heuristic_scores := fullRawScores
    heuristic_reasoning := []
    recommendations := ["Increase contrast"]
    strengths := ["Clean layout"]
    areas_for_improvement := ["Contrast"]
    summary := "Solid baseline design." }

/-- A canned model response for design B (all scores 7). -/
def rawRespB : RawResponse :=
  { heuristic_scores := rawScoresSeven
    heuristic_reasoning := []
    recommendations := ["Tighten spacing"]
    strengths := ["Strong hierarchy"]
    areas_for_improvement := ["Spacing"]
    summary := "Polished design." }

/-- A concrete upload for design A. -/
def imageA : ImageFile := ⟨"design_a.png", 2048, "image/png"⟩

/-- A concrete upload for design B. -/
def imageB : ImageFile := ⟨"design_b.png", 4096, "image/png"⟩

/-- A deterministic model client stub returning the canned responses. -/
def sampleModel : ImageFile → Except ErrorKind RawResponse :=
  fun img => if img.name == "design_a.png" then .ok rawRespA else .ok rawRespB

/-- The score set with all 16 scores equal to 7. -/
def sevenPointScores : HeuristicScores :=
  ⟨7, 7, 7, 7, 7, 7, 7, 7, 7, 7, 7, 7, 7, 7, 7, 7⟩

/-- The analysis the pipeline produces for `rawRespA`. -/
def analysisA : DesignAnalysis :=
  { overall_score := computeOverallScore fivePointScores
    heuristic_scores := fivePointScores
    heuristic_reasoning := rawRespA.heuristic_reasoning
    recommendations := cleanTextList rawRespA.recommendations
    strengths := cleanTextList rawRespA.strengths
    areas_for_improvement := cleanTextList rawRespA.areas_for_improvement
    summary := rawRespA.summary }

/-- The analysis the pipeline produces for `rawRespB`. -/
def analysisB : DesignAnalysis :=
  { overall_score := computeOverallScore sevenPointScores
    heuristic_scores := sevenPointScores
    heuristic_reasoning := rawRespB.heuristic_reasoning
    recommendations := cleanTextList rawRespB.recommendations
    strengths := cleanTextList rawRespB.strengths
    areas_for_improvement := cleanTextList rawRespB.areas_for_improvement
    summary := rawRespB.summary }

/-- C6 witness: on the concrete stub model the two comparison orders
succeed and the swapped run exchanges scores and sub-analyses and flips
the winner. -/
theorem comparison_swap_witness :
    (mkComparison analysisB analysisA).design_a_score =
      (mkComparison analysisA analysisB).design_b_score ∧
    (mkComparison analysisB analysisA).design_b_score =
      (mkComparison analysisA analysisB).design_a_score ∧
    (mkComparison analysisB analysisA).design_a_analysis =
      (mkComparison analysisA analysisB).design_b_analysis ∧
    (mkComparison analysisB analysisA).design_b_analysis =
      (mkComparison analysisA analysisB).design_a_analysis ∧
    (mkComparison analysisB analysisA).winner =
      flipWinner (mkComparison analysisA analysisB).winner ∧
    ((mkComparison analysisA analysisB).winner = .tie ↔
      (mkComparison analysisB analysisA).winner = .tie) := by
  have hpA : parseAnalysis rawRespA = .ok analysisA := by
    have hs : parseScores rawRespA.heuristic_scores = .ok fivePointScores := by
      decide
    simp only [parseAnalysis, hs]
    rfl
  have hpB : parseAnalysis rawRespB = .ok analysisB := by
    have hs : parseScores rawRespB.heuristic_scores = .ok sevenPointScores := by
      decide
    simp only [parseAnalysis, hs]
    rfl
  have hA : (evaluateSingle sampleModel imageA).1 = .ok analysisA := by
    have hm : sampleModel imageA = .ok rawRespA := by decide
    have hv : validImage imageA = true := by decide
    simp only [evaluateSingle, hv, if_true, hm]
    exact hpA
  have hB : (evaluateSingle sampleModel imageB).1 = .ok analysisB := by
    have hm : sampleModel imageB = .ok rawRespB := by decide
    have hv : validImage imageB = true := by decide
    simp only [evaluateSingle, hv, if_true, hm]
    exact hpB
  have hcAB : (evaluateCompare sampleModel imageA imageB).1 =
      .ok (mkComparison analysisA analysisB) := by
    simp only [evaluateCompare, hA, hB]
  have hcBA : (evaluateCompare sampleModel imageB imageA).1 =
      .ok (mkComparison analysisB analysisA) := by
    simp only [evaluateCompare, hA, hB]
  exact comparison_swap sampleModel imageA imageB
    (mkComparison analysisA analysisB) (mkComparison analysisB analysisA)
    hcAB hcBA

/-- C7: the Heuristic Schema exposes, for every one of the 16 dimension
keys, a non-empty label, a non-empty description and a non-empty reference
source URL, and the key ordering is a fixed duplicate-free enumeration of
all 16 keys. -/
theorem heuristic_schema_complete :
    HEURISTIC_ORDER.length = 16 ∧ HEURISTIC_ORDER.Nodup ∧
    (∀ k : HeuristicKey, k ∈ HEURISTIC_ORDER) ∧
    (∀ k : HeuristicKey,
      HEURISTIC_LABELS k ≠ "" ∧ HEURISTIC_DESCRIPTIONS k ≠ "" ∧
      HEURISTIC_SOURCES k ≠ "") := by
  refine ⟨by decide, by decide, fun k => ?_, fun k => ?_⟩
  · cases k <;> simp [HEURISTIC_ORDER]
  · cases k <;> exact ⟨by decide, by decide, by decide⟩

/-- C8: the client dispatch reaches exactly the four logical operations of
the transport boundary — `analyze` with one file, `compare` with two
labeled files, `analyze-url` with a `{url}` body, `compare-urls` with a
`{url, comparison_url}` body — and a request is built only when the panel
can analyze and no request is in flight. -/
theorem transport_four_operations (s : UploadPanelState) (a b : ImageFile) :
    (s.images = [a] →
      buildRequest .single .upload s false = some ⟨"analyze", .fileForm a⟩) ∧
    (s.images = [a, b] →
      buildRequest .comparison .upload s false =
        some ⟨"compare", .compareForm a b⟩) ∧
    (jsTrim s.url ≠ "" →
      buildRequest .single .url s false =
        some ⟨"analyze-url", .urlJson (jsTrim s.url)⟩) ∧
    (jsTrim s.url ≠ "" → jsTrim s.comparisonUrl ≠ "" →
      buildRequest .comparison .url s false =
        some ⟨"compare-urls", .compareUrlsJson (jsTrim s.url) (jsTrim s.comparisonUrl)⟩) ∧
    (∀ (mode : Mode) (inputMode : InputMode) (ia : Bool),
      buildRequest mode inputMode s ia ≠ none →
        canAnalyzeUrlMode mode inputMode s = true ∧ ia = false) := by
  refine ⟨?_, ?_, ?_, ?_, ?_⟩
  · intro h
    simp [buildRequest, canAnalyzeUrlMode, h]
  · intro h
    simp [buildRequest, canAnalyzeUrlMode, h]
  · intro h
    have hb : (jsTrim s.url != "") = true := by simpa using h
    simp [buildRequest, canAnalyzeUrlMode, hb]
  · intro h1 h2
    have hb1 : (jsTrim s.url != "") = true := by simpa using h1
    have hb2 : (jsTrim s.comparisonUrl != "") = true := by simpa using h2
    simp [buildRequest, canAnalyzeUrlMode, hb1, hb2]
  · intro mode inputMode ia hne
    unfold buildRequest at hne
    by_cases hc : (!canAnalyzeUrlMode mode inputMode s || ia) = true
    · rw [if_pos hc] at hne
      exact absurd rfl hne
    · cases hcan : canAnalyzeUrlMode mode inputMode s <;> cases ia <;>
        simp_all

/-- A panel state with one staged image. -/
def singleUploadState : UploadPanelState :=
  { images := [imageA], error := "", url := "", comparisonUrl := "" }

/-- A panel state with two staged images and both URL fields filled
(with whitespace to be trimmed). -/
def filledUploadState : UploadPanelState :=
  { images := [imageA, imageB], error := "",
    url := " https://example.com ", comparisonUrl := "https://example.org" }

/-- C8 witness: the four operations at concrete panel states, with the
`analyze-url` body carrying exactly the trimmed URL string. -/
theorem transport_four_operations_witness :
    buildRequest .single .upload singleUploadState false =
      some ⟨"analyze", .fileForm imageA⟩ ∧
    buildRequest .comparison .upload filledUploadState false =
      some ⟨"compare", .compareForm imageA imageB⟩ ∧
    buildRequest .single .url filledUploadState false =
      some ⟨"analyze-url", .urlJson "https://example.com"⟩ ∧
    buildRequest .comparison .url filledUploadState false =
      some ⟨"compare-urls",
        .compareUrlsJson "https://example.com" "https://example.org"⟩ := by
  refine ⟨?_, ?_, ?_, ?_⟩
  · exact (transport_four_operations singleUploadState imageA imageB).1 rfl
  · exact (transport_four_operations filledUploadState imageA imageB).2.1 rfl
  · exact ((transport_four_operations filledUploadState imageA imageB).2.2.1
      (by decide)).trans (by decide)
  · exact ((transport_four_operations filledUploadState imageA imageB).2.2.2.1
      (by decide) (by decide)).trans (by decide)

/-- C9: in the App state machine, after any event sequence at most one of
`analysisResult` and `comparisonResult` is non-null; completing a single
analysis stores it, clears the comparison result and ends the analyzing
flag; completing a comparison does the symmetric thing; starting an
analysis and switching mode clear both results, and the mode switch also
clears the analyzing flag. -/
theorem app_results_exclusive :
    (∀ events : List AppEvent,
      (runApp events).analysisResult = none ∨
        (runApp events).comparisonResult = none) ∧
    (∀ s r imgs,
      (appStep s (.analysisComplete r imgs)).analysisResult = some r ∧
      (appStep s (.analysisComplete r imgs)).comparisonResult = none ∧
      (appStep s (.analysisComplete r imgs)).isAnalyzing = false) ∧
    (∀ s r imgs,
      (appStep s (.comparisonComplete r imgs)).comparisonResult = some r ∧
      (appStep s (.comparisonComplete r imgs)).analysisResult = none ∧
      (appStep s (.comparisonComplete r imgs)).isAnalyzing = false) ∧
    (∀ s,
      (appStep s .analysisStart).analysisResult = none ∧
      (appStep s .analysisStart).comparisonResult = none) ∧
    (∀ s m,
      (appStep s (.selectMode m)).analysisResult = none ∧
      (appStep s (.selectMode m)).comparisonResult = none ∧
      (appStep s (.selectMode m)).isAnalyzing = false) := by
  have hstep : ∀ (s : AppState) (e : AppEvent),
      (appStep s e).analysisResult = none ∨
        (appStep s e).comparisonResult = none := by
    intro s e
    cases e <;> simp [appStep]
  have hfold : ∀ (events : List AppEvent) (s : AppState),
      (s.analysisResult = none ∨ s.comparisonResult = none) →
      ((events.foldl appStep s).analysisResult = none ∨
        (events.foldl appStep s).comparisonResult = none) := by
    intro events
    induction events with
    | nil => exact fun s hs => hs
    | cons e es ih => exact fun s _ => ih (appStep s e) (hstep s e)
  refine ⟨fun events => hfold events initialAppState (Or.inl rfl),
    fun s r imgs => ⟨rfl, rfl, rfl⟩, fun s r imgs => ⟨rfl, rfl, rfl⟩,
    fun s => ⟨rfl, rfl⟩, fun s m => ⟨rfl, rfl, rfl⟩⟩

/-- `handleAnalysis` of `frontend/src/components/ImageUpload.tsx`
dispatches a backend request exactly when `canAnalyze` holds and no
request is in flight (`if (!canAnalyze() || isAnalyzing) return`). -/
def dispatchesRequest (mode : Mode) (s : UploadPanelState)
    (isAnalyzing : Bool) : Bool :=
  canAnalyze mode s && !isAnalyzing

/-- A first concrete upload file. -/
def fileA : ImageFile := ⟨"a.png", 100, "image/png"⟩

/-- A second concrete upload file. -/
def fileB : ImageFile := ⟨"b.png", 200, "image/png"⟩

/-- A third concrete upload file. -/
def fileC : ImageFile := ⟨"c.png", 300, "image/png"⟩

/-- C10 counterexample: a comparison-mode drop of three files onto an
empty panel is rejected outright — the staged list stays empty — rather
than being truncated to the first two files. -/
theorem comparison_drop_rejected_not_truncated :
    (onDrop .comparison initialUploadState [fileA, fileB, fileC]).images ≠
      (initialUploadState.images ++ [fileA, fileB, fileC]).take 2 ∧
    (onDrop .comparison initialUploadState [fileA, fileB, fileC]).images = [] := by
  decide

/-- C10 (amended): after any event sequence the staged list never exceeds
the mode's maximum (1 in single mode, 2 in comparison mode); an accepted
single-mode drop replaces the staged image while a multi-file single-mode
drop is rejected unchanged; a comparison-mode drop is appended when it
fits within two and rejected unchanged otherwise; removal never grows the
list; and a request is dispatched only when the staged count equals the
mode's maximum. -/
theorem staged_images_bounded :
    (∀ (mode : Mode) (events : List UploadEvent),
      (runUpload mode events).images.length ≤ maxImages mode) ∧
    (∀ (mode : Mode) (s : UploadPanelState),
      canAnalyze mode s = (s.images.length == maxImages mode)) ∧
    (∀ (s : UploadPanelState) (files : List ImageFile), files.length ≤ 1 →
      (onDrop .single s files).images = files.take 1) ∧
    (∀ (s : UploadPanelState) (files : List ImageFile), files.length > 1 →
      (onDrop .single s files).images = s.images) ∧
    (∀ (s : UploadPanelState) (files : List ImageFile),
      s.images.length + files.length ≤ 2 →
      (onDrop .comparison s files).images = s.images ++ files) ∧
    (∀ (s : UploadPanelState) (files : List ImageFile),
      s.images.length + files.length > 2 →
      (onDrop .comparison s files).images = s.images) ∧
    (∀ (s : UploadPanelState) (i : ℕ),
      (removeImage s i).images.length ≤ s.images.length) ∧
    (∀ (mode : Mode) (s : UploadPanelState) (ia : Bool),
      dispatchesRequest mode s ia = true →
      s.images.length = maxImages mode) := by
  have hdropS : ∀ (s : UploadPanelState) (files : List ImageFile),
      (onDrop .single s files).images = files.take 1 ∨
      (onDrop .single s files).images = s.images := by
    intro s files
    unfold onDrop
    split_ifs <;> simp
  have hdropC : ∀ (s : UploadPanelState) (files : List ImageFile),
      (onDrop .comparison s files).images = (s.images ++ files).take 2 ∨
      (onDrop .comparison s files).images = s.images := by
    intro s files
    unfold onDrop
    split_ifs <;> simp
  have hstep : ∀ (mode : Mode) (s : UploadPanelState) (e : UploadEvent),
      s.images.length ≤ maxImages mode →
      (uploadStep mode s e).images.length ≤ maxImages mode := by
    intro mode s e h
    cases e with
    | drop files =>
      cases mode with
      | single =>
        rcases hdropS s files with hc | hc <;>
          simp only [uploadStep, hc, maxImages] at h ⊢
        · simp only [List.length_take]
          omega
        · exact h
      | comparison =>
        rcases hdropC s files with hc | hc <;>
          simp only [uploadStep, hc, maxImages] at h ⊢
        · simp only [List.length_take]
          omega
        · exact h
    | remove i =>
      exact le_trans (List.length_eraseIdx_le _ _) h
  have hfold : ∀ (mode : Mode) (events : List UploadEvent)
      (s : UploadPanelState), s.images.length ≤ maxImages mode →
      ((events.foldl (uploadStep mode) s).images.length ≤ maxImages mode) := by
    intro mode events
    induction events with
    | nil => exact fun s hs => hs
    | cons e es ih => exact fun s hs => ih (uploadStep mode s e) (hstep mode s e hs)
  refine ⟨fun mode events => hfold mode events initialUploadState (by cases mode <;> simp [initialUploadState, maxImages]),
    fun mode s => by cases mode <;> rfl, ?_, ?_, ?_, ?_, ?_, ?_⟩
  · intro s files hle
    unfold onDrop
    rw [if_neg fun hc => by omega, if_neg fun hc => Mode.noConfusion hc.1]
  · intro s files hgt
    unfold onDrop
    rw [if_pos ⟨rfl, hgt⟩]
  · intro s files hle
    unfold onDrop
    rw [if_neg fun hc => Mode.noConfusion hc.1, if_neg fun hc => by omega]
    exact List.take_of_length_le (by simp; omega)
  · intro s files hgt
    unfold onDrop
    rw [if_neg fun hc => Mode.noConfusion hc.1, if_pos ⟨rfl, hgt⟩]
  · intro s i
    exact List.length_eraseIdx_le _ _
  · intro mode s ia h
    rw [dispatchesRequest, Bool.and_eq_true] at h
    cases mode <;> simpa [canAnalyze, maxImages] using h.1

/-- C10 witness: a single-file drop replaces the staged image, an
in-budget comparison drop appends, an over-budget comparison drop leaves
the two staged images unchanged, and the two-image comparison state
dispatches. -/
theorem staged_images_bounded_witness :
    (onDrop .single initialUploadState [fileA]).images = [fileA] ∧
    (onDrop .comparison initialUploadState [fileA, fileB]).images = [fileA, fileB] ∧
    (onDrop .comparison (onDrop .comparison initialUploadState [fileA, fileB])
      [fileC]).images = [fileA, fileB] ∧
    (onDrop .single initialUploadState [fileA, fileB]).images = [] := by
  refine ⟨?_, ?_, ?_, ?_⟩
  · exact (staged_images_bounded.2.2.1 initialUploadState [fileA]
      (by decide)).trans (by decide)
  · exact (staged_images_bounded.2.2.2.2.1 initialUploadState [fileA, fileB]
      (by decide)).trans (by decide)
  · have h2 := staged_images_bounded.2.2.2.2.2.1
      (onDrop .comparison initialUploadState [fileA, fileB]) [fileC] (by decide)
    exact h2.trans (by decide)
  · exact (staged_images_bounded.2.2.2.1 initialUploadState [fileA, fileB]
      (by decide)).trans (by decide)
